import Mathlib

/-!
Verification of the pulpcore OpenAPI schema-generation layer
(`src/pulpcore/openapi/__init__.py`) and the legacy REST client transport
wrapper (`src/src/pulp/client/connection.py`) against their natural-language
specification.

Python strings are embedded as `List Char` (`PyStr`) so that the Python
string primitives used by the source (`str.split`, `str.join`,
`str.replace`, `str.title`, `str.lower`, `re.findall`) can be given
faithful executable definitions with provable algebraic properties.
-/

/-- Embedding of a Python `str` as a list of characters. -/
abbrev PyStr := List Char

/-- Python `str.lower()` (ASCII behaviour, which is all the source uses). -/
def pyLower (s : PyStr) : PyStr := s.map Char.toLower

/-- One step of Python `str.title()`: the boolean records whether the
previous character was a letter (letters open a new word exactly when the
previous character was not a letter). -/
def pyTitleGo : Bool → PyStr → PyStr
  | _, [] => []
  | prevAlpha, c :: cs =>
    if c.isAlpha then
      (if prevAlpha then c.toLower else c.toUpper) :: pyTitleGo true cs
    else
      c :: pyTitleGo false cs

/-- Python `str.title()`: words are maximal runs of letters; the first
letter of each word is uppercased, the remaining letters lowercased. -/
def pyTitle (s : PyStr) : PyStr := pyTitleGo false s

/-- Python `sep.join(parts)` for a list of strings. -/
def pyJoin (sep : PyStr) : List PyStr → PyStr
  | [] => []
  | [t] => t
  | t :: ts => t ++ sep ++ pyJoin sep ts

/-- Python `s.split(c)` for a one-character separator `c`: splits on every
occurrence, keeping empty pieces ( `"".split(c) == [""]` ). -/
def splitOnChar (c : Char) : PyStr → List PyStr
  | [] => [[]]
  | x :: xs =>
    if x = c then
      [] :: splitOnChar c xs
    else
      match splitOnChar c xs with
      | [] => [[x]]
      | r :: rs => (x :: r) :: rs

/-- Fuel-driven worker for `replaceAll`; the fuel (always supplied as the
string's length, which bounds the number of scanning steps) makes the
recursion structural. -/
def replaceAllGo (pat rep : PyStr) : Nat → PyStr → PyStr
  | _, [] => []
  | 0, s => s
  | fuel + 1, x :: xs =>
    if pat ≠ [] ∧ pat <+: (x :: xs) then
      rep ++ replaceAllGo pat rep fuel (List.drop pat.length (x :: xs))
    else
      x :: replaceAllGo pat rep fuel xs

/-- Python `s.replace(pat, rep)` for nonempty `pat`: replaces every
non-overlapping occurrence, scanning left to right.  (The source never
calls `replace` with an empty pattern; this embedding leaves the string
unchanged in that degenerate case.) -/
def replaceAll (pat rep s : PyStr) : PyStr :=
  replaceAllGo pat rep s.length s

/-- Python `s.rsplit(sep, 1)[0]` for a one-character separator: the part of
`s` strictly before the last occurrence of `c`, or all of `s` when `c` does
not occur. -/
def rsplitBeforeLast (c : Char) (s : PyStr) : PyStr :=
  if c ∈ s then
    (((s.reverse).dropWhile (fun d => d ≠ c)).drop 1).reverse
  else
    s

/-- Helper for `pySplitWs`: `acc` holds the (reversed) word currently
being read. -/
def pySplitWsGo (acc : PyStr) : PyStr → List PyStr
  | [] => if acc = [] then [] else [acc.reverse]
  | c :: cs =>
    if c.isWhitespace then
      if acc = [] then pySplitWsGo [] cs else acc.reverse :: pySplitWsGo [] cs
    else
      pySplitWsGo (c :: acc) cs

/-- Python `s.split()` (no argument): splits on runs of whitespace and
drops empty pieces. -/
def pySplitWs (s : PyStr) : List PyStr := pySplitWsGo [] s

/-- Helper for `camelParts`: `acc` holds the (reversed) piece currently
being read, empty while no uppercase letter has started a piece yet. -/
def camelPartsGo (acc : PyStr) : PyStr → List PyStr
  | [] => if acc = [] then [] else [acc.reverse]
  | c :: cs =>
    if c.isUpper then
      if acc = [] then camelPartsGo [c] cs
      else acc.reverse :: camelPartsGo [c] cs
    else
      if acc = [] then camelPartsGo [] cs else camelPartsGo (c :: acc) cs

/-- Python `re.findall("[A-Z][^A-Z]*", s)`: the maximal CamelCase pieces of
`s`, each starting at an uppercase letter; characters before the first
uppercase letter are not matched. -/
def camelParts (s : PyStr) : List PyStr := camelPartsGo [] s

/-- Python association-list view of a `dict`: lookup of the (unique) key. -/
def pyDictGet {β : Type} (d : List (PyStr × β)) (k : PyStr) : Option β :=
  match d with
  | [] => none
  | (a, b) :: rest => if a = k then some b else pyDictGet rest k

/-- Python `d[k] = v`: replaces the value of an existing key in place,
appends a new key at the end (insertion order semantics). -/
def pyDictSet {β : Type} (d : List (PyStr × β)) (k : PyStr) (v : β) :
    List (PyStr × β) :=
  match d with
  | [] => [(k, v)]
  | (a, b) :: rest =>
    if a = k then (a, v) :: rest else (a, b) :: pyDictSet rest k v

/-- Python `d.pop(k)`: the value at `k` together with the dictionary with
that key removed, or `none` when the key is absent. -/
def pyDictPop {β : Type} (d : List (PyStr × β)) (k : PyStr) :
    Option (β × List (PyStr × β)) :=
  match d with
  | [] => none
  | (a, b) :: rest =>
    if a = k then some (b, rest)
    else
      match pyDictPop rest k with
      | none => none
      | some (v, rest2) => some (v, (a, b) :: rest2)

/-! ## `src/src/pulp/client/connection.py` : the Restlib transport wrapper -/

/-- The response object handed back by the HTTP library: its status code
and the raw body text. -/
structure HttpResponse where
  status : Nat
  body : PyStr
deriving DecidableEq

/-- `RestlibException(code, msg)` from connection.py. -/
structure RestlibException where
  code : Nat
  msg : PyStr
deriving DecidableEq

/-- The status codes accepted by `Restlib.validateResponse`
(`[200, 201, 202, 204]`). -/
def acceptedStatuses : List Nat := [200, 201, 202, 204]

/-- `Restlib.validateResponse`: raises `RestlibException(status, body)`
when the status is not in the accepted list. -/
def validateResponse (response : HttpResponse) :
    Except RestlibException Unit :=
  if response.status ∈ acceptedStatuses then .ok ()
  else .error ⟨response.status, response.body⟩

/-- The response-handling tail of `Restlib._request`: a 404 returns `None`;
any other non-accepted status raises via `validateResponse`; an accepted
status with an empty body returns `None`, otherwise the decoded JSON body
is returned.  (`json.loads` is represented by the raw body text, since no
claim inspects the decoded structure.) -/
def Restlib_request (response : HttpResponse) :
    Except RestlibException (Option PyStr) :=
  if response.status = 404 then .ok none
  else
    match validateResponse response with
    | .error e => .error e
    | .ok _ =>
      if response.body.length = 0 then .ok none
      else .ok (some response.body)

/-! ## `src/pulpcore/openapi/__init__.py` : data model -/

/-- A Django model as the schema generator sees it: its class name
(`model.__name__`) and its app label (`model._meta.app_label`). -/
structure PyModel where
  name : PyStr
  app_label : PyStr
deriving DecidableEq

/-- The `parent_viewset` attribute of a nested view: its queryset's model,
its `endpoint_name`, and its `endpoint_pieces()`. -/
structure ParentViewset where
  model : PyModel
  endpoint_name : PyStr
  endpoint_pieces : List PyStr
deriving DecidableEq

/-- The attributes of a view consulted by the schema generator.  Each
`Option` field models a Python attribute that may be absent (`getattr`
with a default) or `None`. -/
structure PulpView where
  queryset_model : Option PyModel
  model_attr : Option PyModel
  parent_viewset : Option ParentViewset
  endpoint_pieces : Option (List PyStr)
  view_name : Option PyStr
  action : Option PyStr
deriving DecidableEq

/-- A Python value appearing in an operation's request/response body
dictionaries; only booleans and strings are needed by the claims. -/
inductive PyVal where
  | bool : Bool → PyVal
  | str : PyStr → PyVal
deriving DecidableEq

/-! ## PulpAutoSchema -/

/-- `PulpAutoSchema.method_mapping`. -/
def method_mapping : List (PyStr × PyStr) :=
  [("get".toList, "read".toList),
   ("post".toList, "create".toList),
   ("put".toList, "update".toList),
   ("patch".toList, "partial_update".toList),
   ("delete".toList, "delete".toList)]

/-- `PulpAutoSchema._tokenize_path`.  `super_tokens` stands for the token
list the drf-spectacular base class derives from the raw path (external
framework code), used only when the view supplies no endpoint pieces. -/
def _tokenize_path (view : PulpView) (super_tokens : List PyStr) :
    List PyStr :=
  let tokenized_path :=
    (match view.parent_viewset with
     | some pv => pv.endpoint_pieces
     | none => []) ++
    (match view.endpoint_pieces with
     | some pieces => pieces
     | none => [])
  let tokenized_path :=
    if tokenized_path = [] then
      if super_tokens = [] then
        match view.view_name with
        | some n => pySplitWs n
        | none => []
      else super_tokens
    else tokenized_path
  splitOnChar '/'
    (replaceAll "pulp/api/v3/".toList [] (pyJoin "/".toList tokenized_path))

/-- The path-to-tag computation of `PulpAutoSchema.get_tags` (lines
91-103): re-join the tokens, drop the API prefix, split again, title-case,
drop the second-to-last key when more than two remain, suffix the first
key with a colon when more than one remains, join with spaces. -/
def get_tags_from_path (tokenized_path : List PyStr) : List PyStr :=
  let subpath := pyJoin "/".toList tokenized_path
  let operation_keys :=
    splitOnChar '/' (replaceAll "pulp/api/v3/".toList [] subpath)
  let operation_keys := operation_keys.map pyTitle
  let operation_keys :=
    if operation_keys.length > 2 then
      operation_keys.eraseIdx (operation_keys.length - 2)
    else operation_keys
  let operation_keys :=
    if operation_keys.length > 1 then
      match operation_keys with
      | [] => []
      | k :: rest => (k ++ ":".toList) :: rest
    else operation_keys
  [pyJoin " ".toList operation_keys]

/-- `PulpAutoSchema.get_tags`: a truthy `pulp_tag_name` attribute
short-circuits (Python truthiness: the empty string does not). -/
def get_tags (pulp_tag_name : Option PyStr) (tokenized_path : List PyStr) :
    List PyStr :=
  match pulp_tag_name with
  | some n => if n = [] then get_tags_from_path tokenized_path else [n]
  | none => get_tags_from_path tokenized_path

/-- `PulpAutoSchema.get_operation_id_action`.  `view_action` is the
view's `action` attribute when present (`getattr(self.view, "action",
self.method.lower())`); `none` as a result models the `KeyError` raised
by `self.method_mapping[...]` on an unmapped method. -/
def get_operation_id_action (view_action : Option PyStr) (method : PyStr)
    (is_list_view : Bool) : Option PyStr :=
  let action_name := view_action.getD (pyLower method)
  if action_name ∉ ["retrieve".toList, "list".toList, "destroy".toList,
      "create".toList] then
    some action_name
  else if pyLower method = "get".toList ∧ is_list_view then
    some "list".toList
  else
    pyDictGet method_mapping (pyLower method)

/-- The token normalization inside `PulpAutoSchema.get_operation_id`:
`t.replace("-", "_").replace("/", "_").lower()`. -/
def normalizeToken (t : PyStr) : PyStr :=
  pyLower (replaceAll "/".toList "_".toList
    (replaceAll "-".toList "_".toList t))

/-- `PulpAutoSchema.get_operation_id`: the normalized tokens followed by
the resolved action, joined with underscores (`none` propagates the
`KeyError` of an unresolvable action). -/
def get_operation_id (tokenized_path : List PyStr)
    (view_action : Option PyStr) (method : PyStr) (is_list_view : Bool) :
    Option PyStr :=
  match get_operation_id_action view_action method is_list_view with
  | none => none
  | some act =>
    some (pyJoin "_".toList ((tokenized_path.map normalizeToken) ++ [act]))

/-- `PulpAutoSchema._get_response_bodies`: a POST on a `CreateModelMixin`
view whose response mapping contains "200" has that body popped and
re-inserted under "201". -/
def _get_response_bodies (method : PyStr) (is_create_model_mixin : Bool)
    (response : List (PyStr × PyVal)) : List (PyStr × PyVal) :=
  if method = "POST".toList ∧ is_create_model_mixin ∧
      (pyDictGet response "200".toList).isSome then
    match pyDictPop response "200".toList with
    | some (body, rest) => pyDictSet rest "201".toList body
    | none => response
  else
    response

/-- `PulpAutoSchema._get_request_body`: a truthy request body (Python
truthiness: neither `None` nor the empty dict) gets `required = True`. -/
def _get_request_body (request_body : Option (List (PyStr × PyVal))) :
    Option (List (PyStr × PyVal)) :=
  match request_body with
  | none => none
  | some d =>
    if d = [] then some d
    else some (pyDictSet d "required".toList (PyVal.bool true))

/-! ## PulpSchemaGenerator -/

/-- `PulpSchemaGenerator.get_parameter_slug_from_model`: the CamelCase
pieces of the model name lowercased, the optional slug piece and then the
non-"core" app label pushed in front, "href" appended, joined with
underscores.  (`if prefix:` is Python truthiness, so an empty string is
not inserted.) -/
def get_parameter_slug_from_model (model : PyModel) (pfx : Option PyStr) :
    PyStr :=
  let parts := (camelParts model.name).map pyLower
  let parts :=
    match pfx with
    | some p => if p = [] then parts else p :: parts
    | none => parts
  let parts :=
    if model.app_label ≠ "core".toList then model.app_label :: parts
    else parts
  pyJoin "_".toList (parts ++ ["href".toList])

/-- The slug piece built for a non-list nested route inside
`convert_endpoint_path_params`: the parent model's app label joined with
the parent's endpoint name, dashes and slashes underscored, lowercased. -/
def nested_param_pfx (pv : ParentViewset) : PyStr :=
  pyLower (replaceAll "/".toList "_".toList (replaceAll "-".toList "_".toList
    (pyJoin "_".toList [pv.model.app_label, pv.endpoint_name])))

/-- The resource model `convert_endpoint_path_params` starts from: the
queryset's model when a queryset exists, else the view's `model`
attribute, else none (early return). -/
def viewResourceModel (view : PulpView) : Option PyModel :=
  match view.queryset_model with
  | none => view.model_attr
  | some m => some m

/-- The path-parameter name `convert_endpoint_path_params` synthesizes:
for a nested list route the slug of the parent's model; for a nested
non-list route the slug of the view's own model with the parent-derived
piece in front; for an un-nested route the slug of the view's model.
`none` when the view has no resource model (the method returns the path
unchanged). -/
def endpoint_param_name (view : PulpView) (is_list_view : Bool) :
    Option PyStr :=
  match viewResourceModel view with
  | none => none
  | some resource_model =>
    match view.parent_viewset with
    | some pv =>
      if is_list_view then
        some (get_parameter_slug_from_model pv.model none)
      else
        some (get_parameter_slug_from_model resource_model
          (some (nested_param_pfx pv)))
    | none => some (get_parameter_slug_from_model resource_model none)

/-- `PulpSchemaGenerator.convert_endpoint_path_params`: everything up to
and including the last `}` (plus the following `/`) is replaced by the
synthesized parameter name in braces. -/
def convert_endpoint_path_params (path : PyStr) (view : PulpView)
    (is_list_view : Bool) : PyStr :=
  if '{' ∉ path then path
  else
    match endpoint_param_name view is_list_view with
    | none => path
    | some param_name =>
      let resource_path := rsplitBeforeLast '}' path ++ "\x7d/".toList
      replaceAll resource_path ('{' :: (param_name ++ "\x7d".toList)) path

/-- Modelled from the spec: one scanning pass of the HTML-stripping
transformation.  The boolean state records whether the scanner is inside
a tag span currently being dropped: outside a span, a `<` that is
followed by some `>` opens a span; inside a span, everything up to and
including the first `>` is dropped. -/
def stripGo : Bool → PyStr → PyStr
  | _, [] => []
  | false, c :: cs =>
    if c = '<' ∧ '>' ∈ cs then stripGo true cs
    else c :: stripGo false cs
  | true, d :: ds => if d = '>' then stripGo false ds else stripGo true ds

/-- Modelled from the spec: the HTML-stripping transformation applied to
operation descriptions is `django.utils.html.strip_tags`, an external
dependency whose code is not under `src/`.  One pass removes each tag
span, i.e. a `<` that is followed by some `>` together with everything up
to and including the first such `>`. -/
def stripOnce (s : PyStr) : PyStr := stripGo false s

/-- Modelled from the spec: the `strip_tags` driver loop — while both `<`
and `>` occur, apply one stripping pass; stop (returning the previous
value) as soon as a pass no longer reduces the number of `<` characters.
The fuel argument bounds the iteration count; `strip_tags` supplies
enough fuel for the loop to reach its exit condition. -/
def strip_tags_loop : Nat → PyStr → PyStr
  | 0, value => value
  | fuel + 1, value =>
    if '<' ∈ value ∧ '>' ∈ value then
      if (stripOnce value).count '<' = value.count '<' then value
      else strip_tags_loop fuel (stripOnce value)
    else value

/-- Modelled from the spec: `django.utils.html.strip_tags` (external to
`src/`), stripping tag spans until a pass removes no further `<`. -/
def strip_tags (value : PyStr) : PyStr :=
  strip_tags_loop (value.count '<' + 1) value

/-- A string on which the `strip_tags` loop would immediately stop: either
one of `<`/`>` is missing, or a stripping pass removes no `<`. -/
def stripStable (value : PyStr) : Prop :=
  ¬ ('<' ∈ value ∧ '>' ∈ value) ∨
    (stripOnce value).count '<' = value.count '<'

/-- The operation object assembled for one path/method pair, reduced to
the fields the claims speak about: its `operationId`, its `description`
and the names of its `parameters` (absent when the drf-built operation
has no "parameters" key). -/
structure Operation where
  operationId : PyStr
  description : PyStr
  parameters : Option (List PyStr)
deriving DecidableEq

/-- One endpoint as `PulpSchemaGenerator.parse` iterates it: the original
path, the HTTP method, the view's attributes, and the framework-supplied
data about the route (owning plugin, permission check outcome, removal by
`@extend_schema`, list-view detection, base-class path tokens, the
operation description and parameter names drf assembles). -/
structure Route where
  orig_path : PyStr
  method : PyStr
  view : PulpView
  plugin : PyStr
  has_permission : Bool
  schema_removed : Bool
  is_list_view : Bool
  super_tokens : List PyStr
  description : PyStr
  op_parameters : Option (List PyStr)
deriving DecidableEq

/-- The token list `schema._tokenize_path()` yields for a route. -/
def routeTokens (r : Route) : List PyStr :=
  _tokenize_path r.view r.super_tokens

/-- `schema.get_operation(...)` as `parse` sees it: `some none` when the
operation was removed via `@extend_schema`, `none` (propagated failure)
when the action cannot be resolved, otherwise the assembled operation.
The drf-spectacular assembly itself is external; the fields it fills are
carried on the route. -/
def get_operation (r : Route) : Option (Option Operation) :=
  if r.schema_removed then some none
  else
    match get_operation_id (routeTokens r) r.view.action r.method
        r.is_list_view with
    | none => none
    | some oid => some (some ⟨oid, r.description, r.op_parameters⟩)

/-- The `bindings` shortening in `parse`: when the operationId
syntactically equals `{joined tokens}_{action}`, it is replaced by the
bare action. -/
def bindings_shorten (r : Route) (op : Operation) : Operation :=
  let tokenized_path := pyJoin "_".toList ((routeTokens r).map normalizeToken)
  match get_operation_id_action r.view.action r.method r.is_list_view with
  | none => op
  | some action =>
    if tokenized_path ++ "_".toList ++ action = op.operationId then
      { op with operationId := action }
    else op

/-- The two synthetic query parameters (`fields`, `exclude_fields`) that
`parse` appends to every GET operation that has parameters. -/
def add_fields_params (op : Operation) : Operation :=
  { op with
      parameters := some ((op.parameters.getD []) ++ ["fields".toList, "exclude_fields".toList]) }

/-- The path normalization at the end of the `parse` loop body: a leading
slash is dropped, then a path not starting with `{` is resolved against
the mount url.  `urljoin(self.url or "/", path)` is modelled for the
default configuration (`self.url` is `None`), where it prepends `/` to
the relative path. -/
def normalizePath (path : PyStr) : PyStr :=
  let path := if "/".toList <+: path then path.drop 1 else path
  if ¬ ("\x7b".toList <+: path) then '/' :: path else path

/-- The document under construction: a Python dict from path to a dict
from lowercased method to operation. -/
abbrev Document := List (PyStr × List (PyStr × Operation))

/-- `result.setdefault(path, {}); result[path][method.lower()] = op`. -/
def docSet (result : Document) (path m : PyStr) (op : Operation) :
    Document :=
  pyDictSet result path (pyDictSet ((pyDictGet result path).getD []) m op)

/-- The plugin filter at the top of the `parse` loop:
`if plugins and plugin not in plugins: continue`. -/
def pluginExcluded (plugins : Option (List PyStr)) (r : Route) : Prop :=
  match plugins with
  | some ps => ps ≠ [] ∧ r.plugin ∉ ps
  | none => False

instance (plugins : Option (List PyStr)) (r : Route) :
    Decidable (pluginExcluded plugins r) := by
  unfold pluginExcluded
  cases plugins with
  | none => exact inferInstance
  | some ps => exact inferInstance

/-- The per-operation side effects inside the `parse` loop body: strip
HTML from the description unless `include_html` was requested, apply the
`bindings` shortening, and append the field-projection query parameters
to GET operations that have parameters. -/
def transformOp (bindings include_html : Bool) (r : Route)
    (operation : Operation) : Operation :=
  let operation :=
    if include_html then operation
    else { operation with description := strip_tags operation.description }
  let operation :=
    if bindings then bindings_shorten r operation else operation
  if operation.parameters.isSome ∧ pyLower r.method = "get".toList then
    add_fields_params operation
  else operation

/-- The inner `for path in endpoint_paths` loop of `parse`: fetch the
operation (skipping removed ones), apply the per-operation side effects,
normalize the path and store the operation under path and lowercased
method. -/
def processPaths (bindings include_html : Bool) (r : Route) :
    List PyStr → Document → Option Document
  | [], result => some result
  | path :: rest, result =>
    match get_operation r with
    | none => none
    | some none => processPaths bindings include_html r rest result
    | some (some operation) =>
      processPaths bindings include_html r rest
        (docSet result (normalizePath path) (pyLower r.method)
          (transformOp bindings include_html r operation))

/-- The body of the outer `parse` loop for one route: plugin filter,
permission check, then one operation entry for the original path and one
for its nested-parameter-renamed alias. -/
def processRoute (plugins : Option (List PyStr))
    (bindings include_html : Bool) (r : Route) (result : Document) :
    Option Document :=
  if pluginExcluded plugins r then some result
  else if ¬ r.has_permission then some result
  else
    processPaths bindings include_html r
      [r.orig_path,
       convert_endpoint_path_params r.orig_path r.view r.is_list_view]
      result

/-- The outer loop of `PulpSchemaGenerator.parse` over all endpoints. -/
def parseGo (plugins : Option (List PyStr)) (bindings include_html : Bool) :
    List Route → Document → Option Document
  | [], result => some result
  | r :: rs, result =>
    match processRoute plugins bindings include_html r result with
    | none => none
    | some result2 => parseGo plugins bindings include_html rs result2

/-- `PulpSchemaGenerator.parse`: iterate every discovered route into an
initially empty document.  `bindings`/`include_html` reflect the request
query parameters; `none` models an uncaught exception. -/
def parse (plugins : Option (List PyStr)) (bindings include_html : Bool)
    (routes : List Route) : Option Document :=
  parseGo plugins bindings include_html routes []

/-- All (path, method, operation) entries of a document. -/
def docEntries : Document → List (PyStr × PyStr × Operation)
  | [] => []
  | (p, inner) :: rest =>
    inner.map (fun mi => (p, mi.1, mi.2)) ++ docEntries rest

/-- The operationIds of all entries of a document. -/
def docOperationIds (doc : Document) : List PyStr :=
  (docEntries doc).map (fun e => e.2.2.operationId)

/-- The operationId a route produces (before any `bindings` shortening). -/
def routeOpId (r : Route) : Option PyStr :=
  get_operation_id (routeTokens r) r.view.action r.method r.is_list_view

/-- The (normalized) document paths a route's operation is emitted
under: its original path and its converted alias. -/
def routePaths (r : Route) : List PyStr :=
  [normalizePath r.orig_path,
   normalizePath
     (convert_endpoint_path_params r.orig_path r.view r.is_list_view)]

/-! ## Claim-side (specification-worded) definitions, for comparison -/

/-- The tag algorithm exactly as the specification words it: title-case
every token, drop the second-to-last token when more than two remain,
append a colon to the first token when more than one remains, join with
spaces. -/
def specTagOfTokens (tokens : List PyStr) : PyStr :=
  let ks := tokens.map pyTitle
  let ks := if ks.length > 2 then ks.eraseIdx (ks.length - 2) else ks
  let ks :=
    if ks.length > 1 then
      match ks with
      | [] => []
      | k :: rest => (k ++ ":".toList) :: rest
    else ks
  pyJoin " ".toList ks

/-- The token normalization as the specification words it: lowercase the
token with every dash and slash replaced by an underscore. -/
def specNormToken (t : PyStr) : PyStr :=
  t.map (fun c => if c = '-' ∨ c = '/' then '_' else c.toLower)

/-! ## Concrete example views and routes -/

/-- A repositories viewset acting as parent of nested routes (model
`Repository` in app `core`, endpoint name and pieces "repositories"). -/
def pvRepositories : ParentViewset :=
  ⟨⟨"Repository".toList, "core".toList⟩, "repositories".toList,
   ["repositories".toList]⟩

/-- The versions viewset nested under the repositories viewset (model
`RepositoryVersion`, endpoint pieces "versions"). -/
def viewVersions : PulpView :=
  ⟨some ⟨"RepositoryVersion".toList, "core".toList⟩, none,
   some pvRepositories, some ["versions".toList], none,
   some "retrieve".toList⟩

/-- A sibling viewset nested under the same repositories parent but with
its own model (`RepositoryExport`, endpoint pieces "exports"). -/
def viewExportsList : PulpView :=
  ⟨some ⟨"RepositoryExport".toList, "core".toList⟩, none,
   some pvRepositories, some ["exports".toList], none, some "list".toList⟩

/-- The GET detail route of the nested versions viewset. -/
def routeVersionsDetail : Route :=
  ⟨"/pulp/api/v3/repositories/{repository_pk}/versions/{number}/".toList,
   "GET".toList, viewVersions, "pulpcore".toList, true, false, false, [],
   [], none⟩

/-- An un-nested tasks viewset (model `Task`, endpoint pieces "tasks"). -/
def viewTasks : PulpView :=
  ⟨some ⟨"Task".toList, "core".toList⟩, none, none, some ["tasks".toList],
   none, some "list".toList⟩

/-- The GET list route of the tasks viewset; its path holds no `{`
placeholder, so its converted alias coincides with the original path. -/
def routeTasksList : Route :=
  ⟨"/pulp/api/v3/tasks/".toList, "GET".toList, viewTasks,
   "pulpcore".toList, true, false, true, [], [], none⟩

/-- The document generated for the single tasks route. -/
def docTasks : Document := (parse none false false [routeTasksList]).getD []

/-- A document entry originates from one of the given routes: its method
is that route's lowercased method, its operationId is that route's
operation id, and its path is one of that route's two emitted paths. -/
def entryFromRoutes (routes : List Route)
    (e : PyStr × PyStr × Operation) : Prop :=
  ∃ r ∈ routes, e.2.1 = pyLower r.method ∧
    routeOpId r = some e.2.2.operationId ∧ e.1 ∈ routePaths r

/-- C3: a 404 response makes the Restlib call return an empty result with
no error raised, and a response whose status is outside the accepted set
{200, 201, 202, 204} (other than the specially handled 404) makes the call
raise a `RestlibException` carrying that status code and the raw response
body. -/
theorem c3_restlib_error_handling :
    (∀ body : PyStr, Restlib_request ⟨404, body⟩ = .ok none) ∧
    (∀ (s : Nat) (body : PyStr), s ∉ acceptedStatuses → s ≠ 404 →
      Restlib_request ⟨s, body⟩ = .error ⟨s, body⟩) := by
  constructor
  · intro body
    simp [Restlib_request]
  · intro s body hs h404
    simp [Restlib_request, h404, validateResponse, hs]

/-- C3 witness: concretely, a 404 with body "gone" returns the empty
result and a 500 with body "err" raises `RestlibException(500, "err")`. -/
theorem c3_restlib_error_handling_witness :
    Restlib_request ⟨404, "gone".toList⟩ = .ok none ∧
    Restlib_request ⟨500, "err".toList⟩ = .error ⟨500, "err".toList⟩ :=
  ⟨c3_restlib_error_handling.1 "gone".toList,
   c3_restlib_error_handling.2 500 "err".toList (by decide) (by decide)⟩

/-- C9: an accepted status (200/201/202/204) with an empty response body
returns the empty result `None` rather than decoding JSON, which is the
same result a 404 produces. -/
theorem c9_empty_body_indistinguishable_from_404 (s : Nat)
    (h : s ∈ acceptedStatuses) :
    Restlib_request ⟨s, []⟩ = .ok none ∧
    Restlib_request ⟨s, []⟩ = Restlib_request ⟨404, []⟩ := by
  have hok : Restlib_request ⟨s, []⟩ = .ok none := by
    have h404 : s ≠ 404 := by
      intro hs
      subst hs
      exact absurd h (by decide)
    simp [Restlib_request, h404, validateResponse, h]
  refine ⟨hok, ?_⟩
  rw [hok]
  simp [Restlib_request]

/-- C9 witness: a 200 response with an empty body returns the empty
result, exactly as a 404 does. -/
theorem c9_empty_body_indistinguishable_from_404_witness :
    Restlib_request ⟨200, []⟩ = .ok none ∧
    Restlib_request ⟨200, []⟩ = Restlib_request ⟨404, []⟩ :=
  c9_empty_body_indistinguishable_from_404 200 (by decide)

/-! ## Helper lemmas about the Python string primitives -/

theorem pyJoin_cons_cons (sep t u : PyStr) (us : List PyStr) :
    pyJoin sep (t :: u :: us) = t ++ sep ++ pyJoin sep (u :: us) := rfl

theorem pyJoin_append_single (sep a : PyStr) (xs : List PyStr)
    (h : xs ≠ []) :
    pyJoin sep (xs ++ [a]) = pyJoin sep xs ++ sep ++ a := by
  induction xs with
  | nil => exact absurd rfl h
  | cons x xs ih =>
    cases xs with
    | nil => simp [pyJoin]
    | cons y ys =>
      simp only [List.cons_append, pyJoin_cons_cons]
      rw [← List.cons_append, ih (by simp)]
      simp [List.append_assoc]

theorem replaceAllGo_of_no_occurrence (pat rep : PyStr) (fuel : Nat) :
    ∀ s : PyStr, ¬ pat <:+: s → replaceAllGo pat rep fuel s = s := by
  induction fuel with
  | zero => intro s _; cases s <;> rfl
  | succ fuel ih =>
    intro s h
    cases s with
    | nil => rfl
    | cons x xs =>
      rw [List.infix_cons_iff] at h
      push_neg at h
      unfold replaceAllGo
      rw [if_neg (fun hc => h.1 hc.2)]
      rw [ih xs h.2]

theorem replaceAll_of_no_occurrence (pat rep s : PyStr)
    (h : ¬ pat <:+: s) : replaceAll pat rep s = s :=
  replaceAllGo_of_no_occurrence pat rep s.length s h

theorem splitOnChar_of_not_mem (c : Char) (s : PyStr) (h : c ∉ s) :
    splitOnChar c s = [s] := by
  induction s with
  | nil => rfl
  | cons x xs ih =>
    simp only [List.mem_cons, not_or] at h
    have hx : ¬ x = c := fun he => h.1 he.symm
    simp only [splitOnChar, if_neg hx, ih h.2]

theorem splitOnChar_append (c : Char) (t w : PyStr) (h : c ∉ t) :
    splitOnChar c (t ++ c :: w) = t :: splitOnChar c w := by
  induction t with
  | nil => simp [splitOnChar]
  | cons x xs ih =>
    simp only [List.mem_cons, not_or] at h
    have hx : ¬ x = c := fun he => h.1 he.symm
    simp only [List.cons_append, splitOnChar, if_neg hx, List.append_eq,
      ih h.2]

theorem splitOnChar_pyJoin (c : Char) (ts : List PyStr) (h1 : ts ≠ [])
    (h2 : ∀ t ∈ ts, c ∉ t) : splitOnChar c (pyJoin [c] ts) = ts := by
  induction ts with
  | nil => exact absurd rfl h1
  | cons t ts ih =>
    cases ts with
    | nil =>
      simpa [pyJoin] using splitOnChar_of_not_mem c t (h2 t (by simp))
    | cons u us =>
      have hj : pyJoin [c] (t :: u :: us) = t ++ c :: pyJoin [c] (u :: us) := by
        simp [pyJoin]
      rw [hj, splitOnChar_append c t _ (h2 t (by simp)),
        ih (by simp) (fun x hx => h2 x (List.mem_cons_of_mem t hx))]

theorem replaceAllGo_singleton (c d : Char) (fuel : Nat) :
    ∀ s : PyStr, s.length ≤ fuel →
      replaceAllGo [c] [d] fuel s = s.map (fun x => if x = c then d else x) := by
  induction fuel with
  | zero =>
    intro s hs
    cases s with
    | nil => rfl
    | cons x xs => simp at hs
  | succ fuel ih =>
    intro s hs
    cases s with
    | nil => rfl
    | cons x xs =>
      have hxs : xs.length ≤ fuel := by
        simp only [List.length_cons] at hs
        omega
      unfold replaceAllGo
      by_cases hx : x = c
      · subst hx
        rw [if_pos ⟨by simp, by simp⟩]
        simpa using ih xs hxs
      · rw [if_neg (fun hc => hx ((List.cons_prefix_cons.mp hc.2).1.symm))]
        simp [hx, ih xs hxs]

theorem replaceAll_singleton (c d : Char) (s : PyStr) :
    replaceAll [c] [d] s = s.map (fun x => if x = c then d else x) :=
  replaceAllGo_singleton c d s.length s (Nat.le_refl _)

theorem normalizeToken_eq_spec (t : PyStr) :
    normalizeToken t = specNormToken t := by
  unfold normalizeToken specNormToken pyLower
  rw [show ("-".toList : PyStr) = ['-'] from rfl,
    show ("/".toList : PyStr) = ['/'] from rfl,
    show ("_".toList : PyStr) = ['_'] from rfl,
    replaceAll_singleton, replaceAll_singleton, List.map_map, List.map_map]
  apply List.map_congr_left
  intro x _
  by_cases h1 : x = '-'
  · subst h1; rfl
  · by_cases h2 : x = '/'
    · subst h2; rfl
    · simp [Function.comp, h1, h2]

/-- C2: with no `pulp_tag_name` override, `get_tags` title-cases every
token, drops the second-to-last token when more than two remain, appends
a colon to the first token when more than one remains, and joins with
spaces (under the side conditions that actually hold for tokenized paths:
at least one token, no slash inside a token, and the joined path not
containing the already-stripped API prefix). -/
theorem c2_get_tags_spec (tokens : List PyStr)
    (h1 : tokens ≠ [])
    (h2 : ∀ t ∈ tokens, '/' ∉ t)
    (h3 : ¬ ("pulp/api/v3/".toList <:+: pyJoin "/".toList tokens)) :
    get_tags none tokens = [specTagOfTokens tokens] := by
  show get_tags_from_path tokens = [specTagOfTokens tokens]
  dsimp only [get_tags_from_path, specTagOfTokens]
  rw [replaceAll_of_no_occurrence _ _ _ h3,
    show ("/".toList : PyStr) = ['/'] from rfl,
    splitOnChar_pyJoin '/' tokens h1 h2]

/-- C2 witness: the three-token path a/b/c yields the single tag "A: C",
and the single-token path "tasks" yields the bare title-cased tag. -/
theorem c2_get_tags_spec_witness :
    get_tags none ["a".toList, "b".toList, "c".toList] = ["A: C".toList] ∧
    get_tags none ["tasks".toList] = ["Tasks".toList] :=
  ⟨(c2_get_tags_spec ["a".toList, "b".toList, "c".toList] (by decide)
      (by decide) (by decide)).trans (by decide),
   (c2_get_tags_spec ["tasks".toList] (by decide) (by decide)
      (by decide)).trans (by decide)⟩

/-- C4 counterexample: on a view that declares no `action` attribute, a
GET resolves to the lowercased method name "get" — not to the canonical
action "read" (nor to "list") that the claim prescribes for GET. -/
theorem c4_counterexample :
    get_operation_id_action none "GET".toList false = some "get".toList ∧
    get_operation_id_action none "GET".toList false ≠ some "read".toList ∧
    get_operation_id_action none "GET".toList true ≠ some "list".toList := by
  decide

/-- C4 (amended): for views that declare an action,
`get_operation_id_action` maps each HTTP method to its canonical action
name (GET→read, POST→create, PUT→update, PATCH→partial_update,
DELETE→delete), a custom action name outside
{retrieve, list, destroy, create} is returned verbatim, and a GET against
a list route resolves to "list"; a view with no declared action gets the
lowercased HTTP method itself returned verbatim (e.g. "get"). -/
theorem c4_action_resolution (a : PyStr) (lv : Bool)
    (ha : a ∉ ["retrieve".toList, "list".toList, "destroy".toList,
      "create".toList]) :
    (∀ (m : PyStr), get_operation_id_action (some a) m lv = some a) ∧
    get_operation_id_action (some "retrieve".toList) "GET".toList false =
      some "read".toList ∧
    get_operation_id_action (some "retrieve".toList) "GET".toList true =
      some "list".toList ∧
    get_operation_id_action (some "list".toList) "GET".toList true =
      some "list".toList ∧
    get_operation_id_action (some "create".toList) "POST".toList lv =
      some "create".toList ∧
    get_operation_id_action (some "update".toList) "PUT".toList lv =
      some "update".toList ∧
    get_operation_id_action (some "partial_update".toList) "PATCH".toList
      lv = some "partial_update".toList ∧
    get_operation_id_action (some "destroy".toList) "DELETE".toList lv =
      some "delete".toList ∧
    get_operation_id_action none "GET".toList lv = some "get".toList := by
  refine ⟨fun m => ?_, ?_, ?_, ?_, ?_, ?_, ?_, ?_, ?_⟩
  · unfold get_operation_id_action
    rw [show (some a).getD (pyLower m) = a from rfl, if_pos ha]
  all_goals cases lv <;> decide

/-- C4 witness: the custom action "sync" is preserved verbatim, and the
canonical mappings hold at the concrete instantiation. -/
theorem c4_action_resolution_witness :
    ("sync".toList ∉ ["retrieve".toList, "list".toList, "destroy".toList,
      "create".toList]) ∧
    get_operation_id_action (some "sync".toList) "POST".toList false =
      some "sync".toList ∧
    get_operation_id_action (some "retrieve".toList) "GET".toList false =
      some "read".toList :=
  ⟨by decide,
   (c4_action_resolution "sync".toList false (by decide)).1 "POST".toList,
   (c4_action_resolution "sync".toList false (by decide)).2.1⟩

/-- C7: `get_operation_id` returns the path tokens lowercased with every
dash and slash replaced by an underscore, joined with underscores, and
suffixed (after a final underscore) with the action resolved by
`get_operation_id_action`. -/
theorem c7_operation_id (tokens : List PyStr) (view_action : Option PyStr)
    (method : PyStr) (lv : Bool) (a : PyStr)
    (h1 : tokens ≠ [])
    (h2 : get_operation_id_action view_action method lv = some a) :
    get_operation_id tokens view_action method lv =
      some (pyJoin "_".toList (tokens.map specNormToken) ++ "_".toList ++ a) := by
  unfold get_operation_id
  rw [h2]
  dsimp only
  have hmap : tokens.map normalizeToken = tokens.map specNormToken :=
    List.map_congr_left (fun t _ => normalizeToken_eq_spec t)
  rw [hmap, pyJoin_append_single _ a _ (by simpa using h1)]

/-- C7 witness: the docstring example — tokens of "/my/path/to/{variable}/api"
with method PATCH give "my_path_to_api_partial_update". -/
theorem c7_operation_id_witness :
    (["my".toList, "path".toList, "to".toList, "api".toList] ≠
      ([] : List PyStr)) ∧
    get_operation_id_action (some "partial_update".toList) "PATCH".toList
      false = some "partial_update".toList ∧
    get_operation_id ["my".toList, "path".toList, "to".toList, "api".toList]
      (some "partial_update".toList) "PATCH".toList false =
      some "my_path_to_api_partial_update".toList :=
  ⟨by decide, by decide,
   (c7_operation_id ["my".toList, "path".toList, "to".toList, "api".toList]
      (some "partial_update".toList) "PATCH".toList false
      "partial_update".toList (by decide) (by decide)).trans (by decide)⟩

/-! ## Helper lemmas about the Python dict embedding -/

theorem pyDictGet_set_self {β : Type} (d : List (PyStr × β)) (k : PyStr)
    (v : β) : pyDictGet (pyDictSet d k v) k = some v := by
  induction d with
  | nil => simp [pyDictSet, pyDictGet]
  | cons p rest ih =>
    obtain ⟨a, b⟩ := p
    by_cases hak : a = k
    · subst hak; simp [pyDictSet, pyDictGet]
    · simp [pyDictSet, pyDictGet, hak, ih]

theorem pyDictGet_set_ne {β : Type} (d : List (PyStr × β)) (k q : PyStr)
    (v : β) (h : q ≠ k) :
    pyDictGet (pyDictSet d k v) q = pyDictGet d q := by
  induction d with
  | nil =>
    have hkq : ¬ k = q := fun he => h he.symm
    simp [pyDictSet, pyDictGet, hkq]
  | cons p rest ih =>
    obtain ⟨a, b⟩ := p
    by_cases hak : a = k
    · subst hak
      have haq : ¬ a = q := fun he => h (he.symm)
      simp [pyDictSet, pyDictGet, haq]
    · by_cases haq : a = q
      · subst haq; simp [pyDictSet, pyDictGet, hak]
      · simp [pyDictSet, pyDictGet, hak, haq, ih]

theorem pyDictGet_of_not_mem_keys {β : Type} (d : List (PyStr × β))
    (k : PyStr) (h : k ∉ d.map Prod.fst) : pyDictGet d k = none := by
  induction d with
  | nil => rfl
  | cons p rest ih =>
    obtain ⟨a, b⟩ := p
    simp only [List.map_cons, List.mem_cons, not_or] at h
    have hak : ¬ a = k := fun he => h.1 he.symm
    simp [pyDictGet, hak, ih h.2]

theorem pyDictPop_spec {β : Type} (d : List (PyStr × β)) (k : PyStr)
    (b : β) (hnodup : (d.map Prod.fst).Nodup)
    (h : pyDictGet d k = some b) :
    ∃ rest, pyDictPop d k = some (b, rest) ∧
      pyDictGet rest k = none ∧
      ∀ q, q ≠ k → pyDictGet rest q = pyDictGet d q := by
  induction d with
  | nil => simp [pyDictGet] at h
  | cons p restd ih =>
    obtain ⟨a, v⟩ := p
    simp only [List.map_cons, List.nodup_cons] at hnodup
    by_cases hak : a = k
    · subst hak
      have hvb : v = b := by simpa [pyDictGet] using h
      subst hvb
      refine ⟨restd, by simp [pyDictPop], ?_, ?_⟩
      · exact pyDictGet_of_not_mem_keys restd a hnodup.1
      · intro q hq
        have haq : ¬ a = q := fun he => hq he.symm
        simp [pyDictGet, haq]
    · have h2 : pyDictGet restd k = some b := by
        simpa [pyDictGet, hak] using h
      obtain ⟨rest2, hp, hg, hq⟩ := ih hnodup.2 h2
      refine ⟨(a, v) :: rest2, by simp [pyDictPop, hak, hp], ?_, ?_⟩
      · simp [pyDictGet, hak, hg]
      · intro q hqk
        by_cases haq : a = q
        · subst haq; simp [pyDictGet]
        · simp [pyDictGet, haq, hq q hqk]

/-- C5: a POST on a creation (`CreateModelMixin`) view whose response
mapping contains status 200 has that body moved to status 201 (so the
final document reports 201, not 200); a mapping without a 200 entry, a
non-POST method, and a non-creation view are all left unchanged. -/
theorem c5_post_response_code (response : List (PyStr × PyVal))
    (hnodup : (response.map Prod.fst).Nodup) :
    (∀ b, pyDictGet response "200".toList = some b →
      pyDictGet (_get_response_bodies "POST".toList true response)
        "201".toList = some b ∧
      pyDictGet (_get_response_bodies "POST".toList true response)
        "200".toList = none) ∧
    (pyDictGet response "200".toList = none →
      _get_response_bodies "POST".toList true response = response) ∧
    (∀ m, m ≠ "POST".toList →
      ∀ c, _get_response_bodies m c response = response) ∧
    (_get_response_bodies "POST".toList false response = response) := by
  refine ⟨?_, ?_, ?_, ?_⟩
  · intro b h
    obtain ⟨rest, hp, hg, hq⟩ := pyDictPop_spec response "200".toList b
      hnodup h
    unfold _get_response_bodies
    rw [if_pos ⟨rfl, rfl, Option.isSome_iff_exists.mpr ⟨b, h⟩⟩, hp]
    constructor
    · exact pyDictGet_set_self rest "201".toList b
    · rw [pyDictGet_set_ne rest "201".toList "200".toList b (by decide)]
      exact hg
  · intro h
    unfold _get_response_bodies
    rw [if_neg (fun hc => by rw [h] at hc; simp at hc)]
  · intro m hm c
    unfold _get_response_bodies
    rw [if_neg (fun hc => hm hc.1)]
  · unfold _get_response_bodies
    rw [if_neg (fun hc => by exact absurd hc.2.1 (by decide))]

/-- C5 witness: a creation POST whose response mapping is exactly
{"200": body} ends with the body under "201" and nothing under "200". -/
theorem c5_post_response_code_witness :
    (([("200".toList, PyVal.str "ok".toList)].map Prod.fst).Nodup) ∧
    pyDictGet (_get_response_bodies "POST".toList true
      [("200".toList, PyVal.str "ok".toList)]) "201".toList =
      some (PyVal.str "ok".toList) ∧
    pyDictGet (_get_response_bodies "POST".toList true
      [("200".toList, PyVal.str "ok".toList)]) "200".toList = none :=
  ⟨by decide,
   ((c5_post_response_code [("200".toList, PyVal.str "ok".toList)]
      (by decide)).1 (PyVal.str "ok".toList) (by decide)).1,
   ((c5_post_response_code [("200".toList, PyVal.str "ok".toList)]
      (by decide)).1 (PyVal.str "ok".toList) (by decide)).2⟩

/-- C10: an operation with a (truthy) request body gets that body marked
`required = True`, other keys of the body untouched; an operation with no
request body is unaffected. -/
theorem c10_request_body_required (d : List (PyStr × PyVal))
    (hd : d ≠ []) :
    _get_request_body none = none ∧
    _get_request_body (some d) =
      some (pyDictSet d "required".toList (PyVal.bool true)) ∧
    pyDictGet (pyDictSet d "required".toList (PyVal.bool true))
      "required".toList = some (PyVal.bool true) ∧
    (∀ k, k ≠ "required".toList →
      pyDictGet (pyDictSet d "required".toList (PyVal.bool true)) k =
        pyDictGet d k) :=
  ⟨rfl, by simp [_get_request_body, hd],
   pyDictGet_set_self d "required".toList (PyVal.bool true),
   fun k hk => pyDictGet_set_ne d "required".toList k (PyVal.bool true) hk⟩

/-- C10 witness: a one-entry request body gets `required = True` added
while its existing entry is preserved. -/
theorem c10_request_body_required_witness :
    (([("content".toList, PyVal.str "x".toList)] :
        List (PyStr × PyVal)) ≠ []) ∧
    pyDictGet (pyDictSet [("content".toList, PyVal.str "x".toList)]
      "required".toList (PyVal.bool true)) "required".toList =
      some (PyVal.bool true) :=
  ⟨by decide,
   (c10_request_body_required [("content".toList, PyVal.str "x".toList)]
      (by decide)).2.2.1⟩

/-- C1 counterexample: the list route and the detail route of the
versions viewset are nested under the same parent resource
(repositories), yet `convert_endpoint_path_params` gives the list route
the parameter name "repository_href" (derived from the parent's model)
and the detail route "core_repositories_repository_version_href"
(derived from its own model with the parent-derived piece in front), so
two sibling nested routes do not receive the same synthesized name. -/
theorem c1_counterexample :
    viewVersions.parent_viewset = some pvRepositories ∧
    endpoint_param_name viewVersions true = some "repository_href".toList ∧
    endpoint_param_name viewVersions false =
      some "core_repositories_repository_version_href".toList ∧
    endpoint_param_name viewVersions true ≠
      endpoint_param_name viewVersions false ∧
    convert_endpoint_path_params
      "/pulp/api/v3/repositories/{repository_pk}/versions/".toList
      viewVersions true = "{repository_href}versions/".toList ∧
    convert_endpoint_path_params
      "/pulp/api/v3/repositories/{repository_pk}/versions/{number}/".toList
      viewVersions false =
      "{core_repositories_repository_version_href}".toList := by
  decide

/-- C1 (amended): for every two nested LIST routes sharing the same
parent resource, `convert_endpoint_path_params` synthesizes the same
path-parameter name for both siblings, namely the slug of the parent's
model; a non-list nested route instead receives a name derived from its
own model with the parent's app label and endpoint name in front, which
in general differs between siblings. -/
theorem c1_nested_list_param_name (v1 v2 : PulpView) (pv : ParentViewset)
    (h1 : v1.parent_viewset = some pv) (h2 : v2.parent_viewset = some pv)
    (hm1 : (viewResourceModel v1).isSome)
    (hm2 : (viewResourceModel v2).isSome) :
    endpoint_param_name v1 true = endpoint_param_name v2 true ∧
    endpoint_param_name v1 true =
      some (get_parameter_slug_from_model pv.model none) := by
  obtain ⟨m1, hm1e⟩ := Option.isSome_iff_exists.mp hm1
  obtain ⟨m2, hm2e⟩ := Option.isSome_iff_exists.mp hm2
  unfold endpoint_param_name
  rw [hm1e, hm2e, h1, h2]
  simp

/-- C1 witness: the versions list route and the exports list route are
nested under the same repositories parent and both receive the parameter
name derived from the parent's model. -/
theorem c1_nested_list_param_name_witness :
    viewVersions.parent_viewset = some pvRepositories ∧
    viewExportsList.parent_viewset = some pvRepositories ∧
    (viewResourceModel viewVersions).isSome ∧
    (viewResourceModel viewExportsList).isSome ∧
    endpoint_param_name viewVersions true =
      endpoint_param_name viewExportsList true ∧
    endpoint_param_name viewVersions true =
      some (get_parameter_slug_from_model pvRepositories.model none) :=
  ⟨rfl, rfl, by decide, by decide,
   (c1_nested_list_param_name viewVersions viewExportsList pvRepositories
      rfl rfl (by decide) (by decide)).1,
   (c1_nested_list_param_name viewVersions viewExportsList pvRepositories
      rfl rfl (by decide) (by decide)).2⟩

/-! ## Helper lemmas about the HTML-stripping model -/

theorem stripGo_sublist (s : PyStr) :
    ∀ b, List.Sublist (stripGo b s) s := by
  induction s with
  | nil => intro b; cases b <;> simp [stripGo]
  | cons x xs ih =>
    intro b
    cases b with
    | false =>
      unfold stripGo
      by_cases hc : x = '<' ∧ '>' ∈ xs
      · rw [if_pos hc]; exact (ih true).cons x
      · rw [if_neg hc]; exact (ih false).cons₂ x
    | true =>
      unfold stripGo
      by_cases hd : x = '>'
      · rw [if_pos hd]; exact (ih false).cons x
      · rw [if_neg hd]; exact (ih true).cons x

theorem stripOnce_count_le (v : PyStr) :
    (stripOnce v).count '<' ≤ v.count '<' :=
  (stripGo_sublist v false).count_le '<'

theorem strip_tags_loop_stable (n : Nat) :
    ∀ v : PyStr, v.count '<' < n → stripStable (strip_tags_loop n v) := by
  induction n with
  | zero => intro v h; omega
  | succ n ih =>
    intro v h
    unfold strip_tags_loop
    by_cases hc : '<' ∈ v ∧ '>' ∈ v
    · rw [if_pos hc]
      by_cases he : (stripOnce v).count '<' = v.count '<'
      · rw [if_pos he]; exact Or.inr he
      · rw [if_neg he]
        apply ih
        have hle := stripOnce_count_le v
        omega
    · rw [if_neg hc]; exact Or.inl hc

theorem strip_tags_of_stable (v : PyStr) (h : stripStable v) :
    strip_tags v = v := by
  unfold strip_tags strip_tags_loop
  rcases h with h | h
  · rw [if_neg h]
  · by_cases hc : '<' ∈ v ∧ '>' ∈ v
    · rw [if_pos hc, if_pos h]
    · rw [if_neg hc]

/-- C8: the HTML-stripping transformation applied to operation
descriptions during document assembly is idempotent — stripping twice
yields the same string as stripping once. -/
theorem c8_strip_tags_idempotent (s : PyStr) :
    strip_tags (strip_tags s) = strip_tags s :=
  strip_tags_of_stable _
    (strip_tags_loop_stable (s.count '<' + 1) s (Nat.lt_succ_self _))

/-! ## Helper lemmas for the parse loop invariant -/

theorem pyDictGet_cons_self {β : Type} (a : PyStr) (b : β)
    (rest : List (PyStr × β)) : pyDictGet ((a, b) :: rest) a = some b := by
  unfold pyDictGet
  rw [if_pos rfl]

theorem pyDictGet_cons_ne {β : Type} (a k : PyStr) (b : β)
    (rest : List (PyStr × β)) (h : ¬ a = k) :
    pyDictGet ((a, b) :: rest) k = pyDictGet rest k := by
  conv_lhs => unfold pyDictGet
  rw [if_neg h]

theorem pyDictSet_cons_self {β : Type} (a : PyStr) (b v : β)
    (rest : List (PyStr × β)) :
    pyDictSet ((a, b) :: rest) a v = (a, v) :: rest := by
  unfold pyDictSet
  rw [if_pos rfl]

theorem pyDictSet_cons_ne {β : Type} (a k : PyStr) (b v : β)
    (rest : List (PyStr × β)) (h : ¬ a = k) :
    pyDictSet ((a, b) :: rest) k v = (a, b) :: pyDictSet rest k v := by
  conv_lhs => unfold pyDictSet
  rw [if_neg h]

theorem pyDictSet_mem {β : Type} (d : List (PyStr × β)) (k : PyStr)
    (v : β) : ∀ x ∈ pyDictSet d k v, x = (k, v) ∨ x ∈ d := by
  induction d with
  | nil =>
    intro x hx
    unfold pyDictSet at hx
    exact Or.inl (List.mem_singleton.mp hx)
  | cons p rest ih =>
    obtain ⟨a, b⟩ := p
    intro x hx
    by_cases hak : a = k
    · subst hak
      rw [pyDictSet_cons_self] at hx
      rcases List.mem_cons.mp hx with h | h
      · exact Or.inl h
      · exact Or.inr (List.mem_cons_of_mem _ h)
    · rw [pyDictSet_cons_ne a k b v rest hak] at hx
      rcases List.mem_cons.mp hx with h | h
      · subst h; exact Or.inr (List.mem_cons_self _ _)
      · rcases ih x h with h2 | h2
        · exact Or.inl h2
        · exact Or.inr (List.mem_cons_of_mem _ h2)

theorem docEntries_docSet (p m : PyStr) (op : Operation) :
    ∀ (doc : Document), ∀ e ∈ docEntries (docSet doc p m op),
      e = (p, m, op) ∨ e ∈ docEntries doc := by
  intro doc
  induction doc with
  | nil =>
    intro e he
    have hds : docSet ([] : Document) p m op = [(p, [(m, op)])] := rfl
    rw [hds] at he
    have hent : docEntries [(p, [(m, op)])] = [(p, m, op)] := rfl
    rw [hent] at he
    exact Or.inl (List.mem_singleton.mp he)
  | cons q rest ih =>
    obtain ⟨a, inner⟩ := q
    intro e he
    by_cases hap : a = p
    · subst hap
      have hds : docSet ((a, inner) :: rest) a m op =
          (a, pyDictSet inner m op) :: rest := by
        unfold docSet
        rw [pyDictGet_cons_self, Option.getD_some, pyDictSet_cons_self]
      rw [hds] at he
      unfold docEntries at he
      rcases List.mem_append.mp he with h | h
      · obtain ⟨mi, hmi, hme⟩ := List.mem_map.mp h
        rcases pyDictSet_mem inner m op mi hmi with h2 | h2
        · left
          rw [← hme, h2]
        · right
          unfold docEntries
          exact List.mem_append.mpr (Or.inl (List.mem_map.mpr ⟨mi, h2, hme⟩))
      · right
        unfold docEntries
        exact List.mem_append.mpr (Or.inr h)
    · have hds : docSet ((a, inner) :: rest) p m op =
          (a, inner) :: docSet rest p m op := by
        unfold docSet
        rw [pyDictGet_cons_ne a p inner rest hap,
          pyDictSet_cons_ne a p inner _ rest hap]
      rw [hds] at he
      unfold docEntries at he
      rcases List.mem_append.mp he with h | h
      · right
        unfold docEntries
        exact List.mem_append.mpr (Or.inl h)
      · rcases ih e h with h2 | h2
        · exact Or.inl h2
        · right
          unfold docEntries
          exact List.mem_append.mpr (Or.inr h2)

theorem transformOp_opId (include_html : Bool) (r : Route)
    (op : Operation) :
    (transformOp false include_html r op).operationId = op.operationId := by
  unfold transformOp
  dsimp only
  rw [if_neg Bool.false_ne_true]
  cases include_html
  · rw [if_neg Bool.false_ne_true]
    split <;> rfl
  · rw [if_pos rfl]
    split <;> rfl

theorem get_operation_opId (r : Route) (op0 : Operation)
    (h : get_operation r = some (some op0)) :
    routeOpId r = some op0.operationId := by
  unfold get_operation at h
  by_cases hrem : r.schema_removed
  · rw [if_pos hrem] at h
    simp at h
  · rw [if_neg hrem] at h
    cases hoid : get_operation_id (routeTokens r) r.view.action r.method
        r.is_list_view with
    | none => rw [hoid] at h; simp at h
    | some oid =>
      rw [hoid] at h
      simp only [Option.some.injEq] at h
      unfold routeOpId
      rw [hoid, ← h]

theorem processPaths_inv (include_html : Bool) (r : Route)
    (routes : List Route) (hr : r ∈ routes) :
    ∀ (paths : List PyStr) (result result2 : Document),
      (∀ p ∈ paths, normalizePath p ∈ routePaths r) →
      (∀ e ∈ docEntries result, entryFromRoutes routes e) →
      processPaths false include_html r paths result = some result2 →
      ∀ e ∈ docEntries result2, entryFromRoutes routes e := by
  intro paths
  induction paths with
  | nil =>
    intro result result2 _ hinv hproc
    unfold processPaths at hproc
    simp only [Option.some.injEq] at hproc
    subst hproc
    exact hinv
  | cons path rest ih =>
    intro result result2 hp hinv hproc
    unfold processPaths at hproc
    cases hop : get_operation r with
    | none => rw [hop] at hproc; simp at hproc
    | some oo =>
      cases oo with
      | none =>
        rw [hop] at hproc
        exact ih result result2
          (fun p hp2 => hp p (List.mem_cons_of_mem _ hp2)) hinv hproc
      | some op0 =>
        rw [hop] at hproc
        apply ih _ result2
          (fun p hp2 => hp p (List.mem_cons_of_mem _ hp2)) ?hinv2 hproc
        intro e he
        rcases docEntries_docSet _ _ _ result e he with h2 | h2
        · subst h2
          refine ⟨r, hr, rfl, ?_, hp path (List.mem_cons_self _ _)⟩
          rw [transformOp_opId include_html r op0]
          exact get_operation_opId r op0 hop
        · exact hinv e h2

theorem parseGo_inv (plugins : Option (List PyStr)) (include_html : Bool)
    (routes : List Route) :
    ∀ (rs : List Route), (∀ r ∈ rs, r ∈ routes) →
      ∀ (result doc : Document),
        (∀ e ∈ docEntries result, entryFromRoutes routes e) →
        parseGo plugins false include_html rs result = some doc →
        ∀ e ∈ docEntries doc, entryFromRoutes routes e := by
  intro rs
  induction rs with
  | nil =>
    intro _ result doc hinv hp
    unfold parseGo at hp
    simp only [Option.some.injEq] at hp
    subst hp
    exact hinv
  | cons r rs ih =>
    intro hsub result doc hinv hp
    unfold parseGo at hp
    cases hpr : processRoute plugins false include_html r result with
    | none => rw [hpr] at hp; simp at hp
    | some result2 =>
      rw [hpr] at hp
      apply ih (fun q hq => hsub q (List.mem_cons_of_mem _ hq)) result2 doc
        ?hinv2 hp
      unfold processRoute at hpr
      by_cases h1 : pluginExcluded plugins r
      · rw [if_pos h1] at hpr
        simp only [Option.some.injEq] at hpr
        subst hpr
        exact hinv
      · rw [if_neg h1] at hpr
        by_cases h2 : ¬ r.has_permission
        · rw [if_pos h2] at hpr
          simp only [Option.some.injEq] at hpr
          subst hpr
          exact hinv
        · rw [if_neg h2] at hpr
          refine processPaths_inv include_html r routes
            (hsub r (List.mem_cons_self _ _)) _ result result2 ?_ hinv hpr
          intro p hp2
          unfold routePaths
          rcases List.mem_cons.mp hp2 with h | h
          · subst h; exact List.mem_cons_self _ _
          · rcases List.mem_cons.mp h with h3 | h3
            · subst h3
              exact List.mem_cons_of_mem _ (List.mem_cons_self _ _)
            · simp at h3

/-- C6 counterexample: a single nested route (the GET detail route of the
versions viewset) is emitted by `parse` under both its original path and
its converted alias path, and the two document entries carry the same
operationId "repositories_versions_read", so operationIds are not
distinct across the document. -/
theorem c6_counterexample :
    (parse none false false [routeVersionsDetail]).map docOperationIds =
      some ["repositories_versions_read".toList,
        "repositories_versions_read".toList] ∧
    ¬ (["repositories_versions_read".toList,
        "repositories_versions_read".toList] : List PyStr).Nodup := by
  constructor
  · decide
  · decide

/-- C6 (amended): in a document produced by `parse` (without the
`bindings` operationId shortening), two entries can share an operationId
only by being the two alias emissions of a single route — they then have
the same method, and both their paths belong to that one route's emitted
path pair — provided distinct routes have distinct operation ids.
Uniqueness across the whole document therefore fails exactly on the
original/converted alias pairs of nested routes. -/
theorem c6_operation_id_uniqueness (plugins : Option (List PyStr))
    (include_html : Bool) (routes : List Route) (doc : Document)
    (hparse : parse plugins false include_html routes = some doc)
    (hinj : ∀ r1 ∈ routes, ∀ r2 ∈ routes,
      routeOpId r1 = routeOpId r2 → r1 = r2) :
    ∀ e1 ∈ docEntries doc, ∀ e2 ∈ docEntries doc,
      e1.2.2.operationId = e2.2.2.operationId →
      e1.2.1 = e2.2.1 ∧
      ∃ r ∈ routes, routeOpId r = some e1.2.2.operationId ∧
        e1.1 ∈ routePaths r ∧ e2.1 ∈ routePaths r := by
  intro e1 he1 e2 he2 heq
  have hall : ∀ e ∈ docEntries doc, entryFromRoutes routes e := by
    refine parseGo_inv plugins include_html routes routes (fun r hr => hr)
      [] doc ?_ hparse
    intro e he
    exact absurd he (by simp [docEntries])
  obtain ⟨r1, hr1, hm1, hid1, hp1⟩ := hall e1 he1
  obtain ⟨r2, hr2, hm2, hid2, hp2⟩ := hall e2 he2
  have hre : r1 = r2 := by
    apply hinj r1 hr1 r2 hr2
    rw [hid1, hid2, heq]
  subst hre
  refine ⟨by rw [hm1, hm2], r1, hr1, hid1, hp1, hp2⟩

/-- C6 witness: for the single un-nested tasks route (whose converted
alias coincides with its original path), the generated document satisfies
the amended uniqueness property. -/
theorem c6_operation_id_uniqueness_witness :
    parse none false false [routeTasksList] = some docTasks ∧
    (∀ r1 ∈ [routeTasksList], ∀ r2 ∈ [routeTasksList],
      routeOpId r1 = routeOpId r2 → r1 = r2) ∧
    (∀ e1 ∈ docEntries docTasks, ∀ e2 ∈ docEntries docTasks,
      e1.2.2.operationId = e2.2.2.operationId →
      e1.2.1 = e2.2.1 ∧
      ∃ r ∈ [routeTasksList], routeOpId r = some e1.2.2.operationId ∧
        e1.1 ∈ routePaths r ∧ e2.1 ∈ routePaths r) :=
  ⟨by decide, by decide,
   c6_operation_id_uniqueness none false [routeTasksList] docTasks
     (by decide) (by decide)⟩
